import Mathlib

/-!
Verification development for the query-construction and model-binding core of
the `hero-db-utils` data-access layer (`hero_db_utils.datamodels`).

The repository snapshot contains only the usage notebook
(`notebooks/datamodels.ipynb`), so the core itself — the Schema Registry,
Query Operator Algebra, Statement Builder, Relation Resolver, Result Mapper
and Model Manager — is modelled here from the specification, with the
notebook's model declarations and observed outputs providing the concrete
instances (the `Store`/`Address`/`Staff` models of the dvd-rentals example).

Machine values are modelled by the closed `Value` type; SQL text is modelled
by lists of `Frag` elements so that parameter placeholders stay observable;
fallible operations return `Except DbError`.
-/

namespace HeroDb

/-- Modelled from the spec: the closed set of coercion kinds a Field
Descriptor may carry (spec §9: string, integer, boolean, timestamp; binary
is not needed by any claim and is represented as a string payload). -/
inductive CoercionKind where
  | cstring
  | cinteger
  | cboolean
  | ctimestamp
  deriving DecidableEq, Repr

/-- Modelled from the spec: a database value. Timestamps are instants
numbered by `Nat`; `vnull` is the language-appropriate "no value". -/
inductive Value where
  | vnull
  | vint (n : Int)
  | vstr (s : String)
  | vbool (b : Bool)
  | vtime (t : Nat)
  deriving DecidableEq, Repr

/-- Modelled from the spec: the field kind of a Field Descriptor — a plain
scalar with a coercion rule, a foreign key naming its target table and
column as strings, or an auto-generated serial key (spec §3). -/
inductive FieldKind where
  | scalar (ty : CoercionKind)
  | foreignKey (targetTable targetField : String)
  | autoSerial
  deriving DecidableEq, Repr

/-- Whether a field kind is the auto-generated serial key. -/
def FieldKind.isAutoSerial : FieldKind → Bool
  | .autoSerial => true
  | _ => false

/-- Modelled from the spec: a Field Descriptor (spec §3): name, kind,
nullability and optional declared default. -/
structure FieldDescr where
  name : String
  kind : FieldKind
  nullable : Bool
  default : Option Value
  deriving DecidableEq, Repr

/-- Modelled from the spec: a Schema Registry entry (spec §3): table name,
ordered field sequence, and the designated primary-key field name. -/
structure SchemaEntry where
  tableName : String
  fields : List FieldDescr
  primaryKeyField : String
  deriving DecidableEq, Repr

/-- Modelled from the spec: the error taxonomy of §7. -/
inductive DbError where
  | unknownModel
  | unknownField (f : String)
  | emptyOperand
  | missingKey
  | valueCoercion (f : String)
  | notFound
  | multipleResults
  | executionFailed
  deriving DecidableEq, Repr

/-- Modelled from the spec: the Query Operator algebra (spec §3/§4.2), the
tagged comparison/membership values usable as filter arguments. The factory
name `value_in` follows the notebook (`QueryOp.value_in([1,2])`). -/
inductive QueryOp where
  | eq (v : Value)
  | value_in (vs : List Value)
  | gt (v : Value)
  | lt (v : Value)
  | gte (v : Value)
  | lte (v : Value)
  | like (v : Value)
  | isNull
  | notEq (v : Value)
  deriving DecidableEq, Repr

/-- The bound operand parameters an operator contributes, in order. -/
def QueryOp.opParams : QueryOp → List Value
  | .eq v | .gt v | .lt v | .gte v | .lte v | .like v | .notEq v => [v]
  | .value_in vs => vs
  | .isNull => []

/-- Modelled from the spec: a fragment of SQL text; `param n` renders as the
positional placeholder `$n`, keeping parameter numbering observable. -/
inductive Frag where
  | lit (s : String)
  | param (n : Nat)
  deriving DecidableEq, Repr

/-- Render a fragment to SQL text. -/
def Frag.render : Frag → String
  | .lit s => s
  | .param n => "$" ++ toString n

/-- Render a fragment list to SQL text. -/
def renderFrags : List Frag → String
  | [] => ""
  | f :: fs => f.render ++ renderFrags fs

theorem renderFrags_append (a b : List Frag) :
    renderFrags (a ++ b) = renderFrags a ++ renderFrags b := by
  induction a with
  | nil => simp [renderFrags]
  | cons f fs ih => simp [renderFrags, ih, String.append_assoc]

/-- The placeholder numbers occurring in a fragment list, in order. -/
def fragNums (fs : List Frag) : List Nat :=
  fs.flatMap fun f => match f with
    | .lit _ => []
    | .param n => [n]

/-- The list `[s, s+1, ..., s+n-1]` of consecutive naturals. -/
def seqFrom : Nat → Nat → List Nat
  | _, 0 => []
  | s, n + 1 => s :: seqFrom (s + 1) n

/-- Comma-separated positional placeholders `$s, $(s+1), ...`, `n` of them. -/
def paramFrags : Nat → Nat → List Frag
  | _, 0 => []
  | s, 1 => [.param s]
  | s, n + 2 => .param s :: .lit ", " :: paramFrags (s + 1) (n + 1)

/-- Modelled from the spec: compilation of one Query Operator against a
column identifier into an SQL fragment plus bound parameters (spec §4.2),
with placeholder numbering starting at `start`. Membership in an empty set
fails with `EmptyOperandError` and emits nothing. -/
def compileOp (col : String) (start : Nat) : QueryOp → Except DbError (List Frag × List Value)
  | .eq v => .ok ([.lit col, .lit " = ", .param start], [v])
  | .notEq v => .ok ([.lit col, .lit " != ", .param start], [v])
  | .gt v => .ok ([.lit col, .lit " > ", .param start], [v])
  | .lt v => .ok ([.lit col, .lit " < ", .param start], [v])
  | .gte v => .ok ([.lit col, .lit " >= ", .param start], [v])
  | .lte v => .ok ([.lit col, .lit " <= ", .param start], [v])
  | .like v => .ok ([.lit col, .lit " LIKE ", .param start], [v])
  | .isNull => .ok ([.lit col, .lit " IS NULL"], [])
  | .value_in [] => .error .emptyOperand
  | .value_in (v :: vs) =>
    .ok ([.lit col, .lit " IN ("] ++ paramFrags start (v :: vs).length ++ [.lit ")"], v :: vs)

theorem seqFrom_succ (s n : Nat) : seqFrom s (n + 1) = s :: seqFrom (s + 1) n := rfl

theorem seqFrom_append (a : Nat) : ∀ (s b : Nat),
    seqFrom s a ++ seqFrom (s + a) b = seqFrom s (a + b) := by
  induction a with
  | zero => intro s b; simp [seqFrom]
  | succ m ih =>
    intro s b
    rw [seqFrom_succ]
    have h := ih (s + 1) b
    simp only [seqFrom_succ, List.cons_append]
    rw [show s + (m + 1) = s + 1 + m by omega, h,
      show m + 1 + b = m + b + 1 by omega, seqFrom_succ]

theorem fragNums_paramFrags (n : Nat) : ∀ s, fragNums (paramFrags s n) = seqFrom s n := by
  induction n using Nat.strong_induction_on with
  | _ n ih =>
    match n with
    | 0 => intro s; simp [paramFrags, fragNums, seqFrom]
    | 1 => intro s; simp [paramFrags, fragNums, seqFrom]
    | m + 2 =>
      intro s
      have h := ih (m + 1) (by omega) (s + 1)
      simp only [paramFrags, fragNums, List.flatMap_cons] at *
      simp [h, seqFrom]

theorem fragNums_append (a b : List Frag) :
    fragNums (a ++ b) = fragNums a ++ fragNums b := by
  simp [fragNums]

/-- Placeholder numbers of a compiled operator are exactly the consecutive
block starting at `start`, one per bound parameter. -/
theorem compileOp_fragNums (col : String) (start : Nat) (op : QueryOp)
    (frag : List Frag) (ps : List Value)
    (h : compileOp col start op = .ok (frag, ps)) :
    fragNums frag = seqFrom start ps.length := by
  cases op with
  | eq v | notEq v | gt v | lt v | gte v | lte v | like v =>
    simp [compileOp] at h
    obtain ⟨h1, h2⟩ := h
    subst h1; subst h2
    simp [fragNums, seqFrom]
  | isNull =>
    simp [compileOp] at h
    obtain ⟨h1, h2⟩ := h
    subst h1; subst h2
    simp [fragNums, seqFrom]
  | value_in vs =>
    cases vs with
    | nil => simp [compileOp] at h
    | cons v vs =>
      simp [compileOp] at h
      obtain ⟨h1, h2⟩ := h
      subst h1; subst h2
      have hp := fragNums_paramFrags (vs.length + 1) start
      simp only [fragNums] at hp ⊢
      simp [hp]

/-- A compiled operator's bound parameters are exactly the operator's
operand parameters. -/
theorem compileOp_params (col : String) (start : Nat) (op : QueryOp)
    (frag : List Frag) (ps : List Value)
    (h : compileOp col start op = .ok (frag, ps)) :
    ps = op.opParams := by
  cases op with
  | eq v | notEq v | gt v | lt v | gte v | lte v | like v =>
    simp [compileOp] at h; simp [QueryOp.opParams, h.2.symm]
  | isNull => simp [compileOp] at h; simp [QueryOp.opParams, h.2.symm]
  | value_in vs =>
    cases vs with
    | nil => simp [compileOp] at h
    | cons v vs => simp [compileOp] at h; simp [QueryOp.opParams, h.2.symm]

/-- C6: compiling membership-in-set with an empty operand set fails with
`EmptyOperandError` and emits no SQL statement; with a non-empty operand
set of `n` values it emits `col IN ($start, $(start+1), ...)` — the rendered
fragment is the column identifier followed by a parenthesised, comma
separated run of consecutive placeholders — with exactly the `n` operand
values bound, numbered consecutively from `start`. -/
theorem compileOp_value_in_spec (col : String) (start : Nat) (vs : List Value) :
    compileOp col start (.value_in []) = .error .emptyOperand ∧
    (vs ≠ [] → ∃ frag,
      compileOp col start (.value_in vs) = .ok (frag, vs) ∧
      fragNums frag = seqFrom start vs.length ∧
      renderFrags frag =
        col ++ " IN (" ++ renderFrags (paramFrags start vs.length) ++ ")") := by
  constructor
  · rfl
  · intro hne
    cases vs with
    | nil => exact absurd rfl hne
    | cons v vs =>
      refine ⟨_, rfl, ?_, ?_⟩
      · have hp := fragNums_paramFrags (vs.length + 1) start
        simp only [fragNums] at hp ⊢
        simp [hp]
      · simp [renderFrags, renderFrags_append, Frag.render, String.append_assoc,
          String.append_empty]

/-- Witness for C6 at a concrete input: the operator of the notebook's
`Address.objects.filter(address_id=QueryOp.value_in([1,2]))` call. -/
theorem compileOp_value_in_spec_witness :
    compileOp "address_id" 1 (.value_in []) = .error .emptyOperand ∧
    ∃ frag,
      compileOp "address_id" 1 (.value_in [.vint 1, .vint 2]) = .ok (frag, [.vint 1, .vint 2]) ∧
      fragNums frag = seqFrom 1 2 ∧
      renderFrags frag = "address_id" ++ " IN (" ++ renderFrags (paramFrags 1 2) ++ ")" :=
  ⟨(compileOp_value_in_spec "address_id" 1 [.vint 1, .vint 2]).1,
   (compileOp_value_in_spec "address_id" 1 [.vint 1, .vint 2]).2 (by decide)⟩

/-- Modelled from the spec: the Statement Builder's WHERE-clause
construction (spec §4.3): one compiled fragment per filter argument, in the
order supplied, with parameter placeholders numbered sequentially starting
at `start`; the fragments are conjoined with AND when rendered. -/
def buildWhere : Nat → List (String × QueryOp) → Except DbError (List (List Frag) × List Value)
  | _, [] => .ok ([], [])
  | start, (col, op) :: rest =>
    match compileOp col start op with
    | .error e => .error e
    | .ok (frag, ps) =>
      match buildWhere (start + ps.length) rest with
      | .error e => .error e
      | .ok (frags, ps2) => .ok (frag :: frags, ps ++ ps2)

/-- Render a WHERE clause: the fragments conjoined with AND. -/
def renderWhere (frags : List (List Frag)) : String :=
  String.intercalate " AND " (frags.map renderFrags)

/-- Total number of bound parameters contributed by the first `i` filter
arguments. -/
def paramsBefore (filters : List (String × QueryOp)) (i : Nat) : Nat :=
  ((filters.take i).map (fun f => f.2.opParams.length)).sum

/-- C8: for every filter-argument list that compiles, the generated WHERE
clause has exactly one predicate fragment per argument (`frags.length`),
the bound parameters are the arguments' operand values concatenated in the
order the arguments were supplied, the placeholder numbers across the whole
clause are the consecutive block `start, start+1, ...` (sequential, stable
numbering), and the `i`-th fragment is exactly the compilation of the `i`-th
argument at the offset following all earlier arguments' parameters. -/
theorem buildWhere_spec (filters : List (String × QueryOp)) :
    ∀ (start : Nat) (frags : List (List Frag)) (params : List Value),
    buildWhere start filters = .ok (frags, params) →
    frags.length = filters.length ∧
    params = filters.flatMap (fun f => f.2.opParams) ∧
    fragNums frags.flatten = seqFrom start params.length ∧
    (∀ i, (hi : i < filters.length) → ∃ hi2 : i < frags.length,
      compileOp (filters.get ⟨i, hi⟩).1 (start + paramsBefore filters i)
          (filters.get ⟨i, hi⟩).2
        = .ok (frags.get ⟨i, hi2⟩, (filters.get ⟨i, hi⟩).2.opParams)) := by
  induction filters with
  | nil =>
    intro start frags params h
    simp [buildWhere] at h
    obtain ⟨h1, h2⟩ := h
    subst h1; subst h2
    exact ⟨rfl, rfl, rfl, fun i hi => absurd hi (by simp)⟩
  | cons hd rest ih =>
    obtain ⟨col, op⟩ := hd
    intro start frags params h
    simp only [buildWhere] at h
    cases hc : compileOp col start op with
    | error e => rw [hc] at h; simp at h
    | ok fp =>
      obtain ⟨frag, ps⟩ := fp
      rw [hc] at h
      simp only at h
      cases hb : buildWhere (start + ps.length) rest with
      | error e => rw [hb] at h; simp at h
      | ok fp2 =>
        obtain ⟨frags2, ps2⟩ := fp2
        rw [hb] at h
        simp only [Except.ok.injEq, Prod.mk.injEq] at h
        obtain ⟨h1, h2⟩ := h
        subst h1; subst h2
        obtain ⟨ihLen, ihParams, ihNums, ihIdx⟩ := ih (start + ps.length) frags2 ps2 hb
        have hps := compileOp_params col start op frag ps hc
        have hnum := compileOp_fragNums col start op frag ps hc
        refine ⟨by simp [ihLen], ?_, ?_, ?_⟩
        · simp [ihParams, hps]
        · rw [List.flatten_cons, fragNums_append, hnum, ihNums,
            List.length_append, seqFrom_append]
        · intro i hi
          cases i with
          | zero =>
            refine ⟨by simp, ?_⟩
            simpa [paramsBefore, hps] using hc
          | succ i =>
            have hi' : i < rest.length := by simpa using hi
            obtain ⟨hj, hcomp⟩ := ihIdx i hi'
            refine ⟨by simpa using hj, ?_⟩
            have harith : start + paramsBefore ((col, op) :: rest) (i + 1)
                = start + ps.length + paramsBefore rest i := by
              simp [paramsBefore, hps]; omega
            simpa [harith] using hcomp

/-- Concrete filter-argument list used by the C8 witness: the notebook's
`Staff` filter shapes. -/
def c8FilterEx : List (String × QueryOp) :=
  [("staff_id", .eq (.vint 3)), ("active", .isNull),
   ("store_id", .value_in [.vint 1, .vint 2])]

/-- Concrete fragments produced for `c8FilterEx`. -/
def c8FragsEx : List (List Frag) :=
  [[.lit "staff_id", .lit " = ", .param 1],
   [.lit "active", .lit " IS NULL"],
   [.lit "store_id", .lit " IN (", .param 2, .lit ", ", .param 3, .lit ")"]]

/-- Concrete parameters produced for `c8FilterEx`. -/
def c8ParamsEx : List Value := [.vint 3, .vint 1, .vint 2]

/-- Witness for C8 at a concrete three-argument filter list. -/
theorem buildWhere_spec_witness :
    c8FragsEx.length = c8FilterEx.length ∧
    c8ParamsEx = c8FilterEx.flatMap (fun f => f.2.opParams) ∧
    fragNums c8FragsEx.flatten = seqFrom 1 c8ParamsEx.length ∧
    (∀ i, (hi : i < c8FilterEx.length) → ∃ hi2 : i < c8FragsEx.length,
      compileOp (c8FilterEx.get ⟨i, hi⟩).1 (1 + paramsBefore c8FilterEx i)
          (c8FilterEx.get ⟨i, hi⟩).2
        = .ok (c8FragsEx.get ⟨i, hi2⟩, (c8FilterEx.get ⟨i, hi⟩).2.opParams)) :=
  buildWhere_spec c8FilterEx 1 c8FragsEx c8ParamsEx (by rfl)

/-- Association lookup by string key, first match wins. -/
def alookup {α : Type} (key : String) : List (String × α) → Option α
  | [] => none
  | (k, v) :: rest => if k = key then some v else alookup key rest

/-- Modelled from the spec: a raw result row, a mapping from column name to
value (first binding wins on lookup). -/
abbrev Row : Type := List (String × Value)

/-- The value of a column in a row; absent columns read as null. -/
def rowValue (row : Row) (col : String) : Value :=
  (alookup col row).getD .vnull

/-- Column names bound by a row, in order. -/
def rowCols (row : Row) : List String :=
  row.map Prod.fst

/-- Modelled from the spec: the external executor's evaluation of one Query
Operator against a stored value (spec §6). Order comparisons apply to
integers and timestamps; `LIKE` patterns without wildcards behave as literal
match, which is all the core's claims exercise. -/
def evalOp (v : Value) : QueryOp → Bool
  | .eq w => v = w
  | .notEq w => v ≠ w
  | .value_in ws => ws.any (fun w => v = w)
  | .gt w => match v, w with
    | .vint a, .vint b => b < a
    | .vtime a, .vtime b => b < a
    | _, _ => false
  | .lt w => match v, w with
    | .vint a, .vint b => a < b
    | .vtime a, .vtime b => a < b
    | _, _ => false
  | .gte w => match v, w with
    | .vint a, .vint b => b ≤ a
    | .vtime a, .vtime b => b ≤ a
    | _, _ => false
  | .lte w => match v, w with
    | .vint a, .vint b => a ≤ b
    | .vtime a, .vtime b => a ≤ b
    | _, _ => false
  | .like w => v = w
  | .isNull => v = .vnull

/-- A row satisfies a filter-argument list when every argument's operator
accepts the row's value for that column. -/
def rowMatches (row : Row) (filters : List (String × QueryOp)) : Bool :=
  filters.all (fun f => evalOp (rowValue row f.1) f.2)

/-- The rows of a table that satisfy the filters. -/
def filterRows (rows : List Row) (filters : List (String × QueryOp)) : List Row :=
  rows.filter (fun r => rowMatches r filters)

/-- The declared field names of a schema, in declaration order. -/
def fieldNames (schema : SchemaEntry) : List String :=
  schema.fields.map FieldDescr.name

/-- Modelled from the spec: filter-argument validation against the Schema
Registry — unknown field names fail with `UnknownFieldError` (spec §4.3). -/
def validateFilterFields (schema : SchemaEntry) : List (String × QueryOp) → Except DbError Unit
  | [] => .ok ()
  | (col, _) :: rest =>
    if col ∈ fieldNames schema then validateFilterFields schema rest
    else .error (.unknownField col)

/-- Modelled from the spec: a built SELECT statement — projected column
list, table, WHERE fragments and bound parameters (spec §4.3). -/
structure SelectStmt where
  columns : List String
  table : String
  whereFrags : List (List Frag)
  params : List Value
  deriving DecidableEq, Repr

/-- Modelled from the spec: the Statement Builder's SELECT path without an
explicit column list (spec §4.3, used by `all`/`filter`): the projected
columns default to all declared fields of the primary table, filters are
validated against the registry and compiled into the WHERE clause. -/
def buildSelect (schema : SchemaEntry) (filters : List (String × QueryOp)) :
    Except DbError SelectStmt :=
  match validateFilterFields schema filters with
  | .error e => .error e
  | .ok _ =>
    match buildWhere 1 filters with
    | .error e => .error e
    | .ok (frags, ps) => .ok ⟨fieldNames schema, schema.tableName, frags, ps⟩

/-- Spec-words variant of the default SELECT projection, kept for
comparison with the observed behavior: with `buildSelect` as the spec's §4.3
words describe it, the column list would equal the declared field-name
sequence. The notebook's observed outputs show the program does not do
this (see `staff_select_not_declared_columns`). -/
theorem buildSelect_columns (schema : SchemaEntry) (filters : List (String × QueryOp))
    (stmt : SelectStmt) (h : buildSelect schema filters = .ok stmt) :
    stmt.columns = schema.fields.map FieldDescr.name ∧ stmt.table = schema.tableName := by
  unfold buildSelect at h
  cases hv : validateFilterFields schema filters with
  | error e => rw [hv] at h; simp at h
  | ok u =>
    rw [hv] at h
    simp only at h
    cases hw : buildWhere 1 filters with
    | error e => rw [hw] at h; simp at h
    | ok fp =>
      obtain ⟨frags, ps⟩ := fp
      rw [hw] at h
      simp only [Except.ok.injEq] at h
      subst h
      exact ⟨rfl, rfl⟩

/-- The `Staff` model schema as declared in the notebook (cell declaring
`class Staff`): nine settable fields followed by the auto-serial
`staff_id`. -/
def staffSchema : SchemaEntry :=
  { tableName := "staff"
    fields :=
      [⟨"first_name", .scalar .cstring, false, none⟩,
       ⟨"last_name", .scalar .cstring, false, none⟩,
       ⟨"address_id", .foreignKey "address" "address_id", false, none⟩,
       ⟨"email", .scalar .cstring, false, none⟩,
       ⟨"store_id", .foreignKey "stores" "store_id", false, none⟩,
       ⟨"active", .scalar .cboolean, false, none⟩,
       ⟨"username", .scalar .cstring, false, none⟩,
       ⟨"password", .scalar .cstring, false, none⟩,
       ⟨"last_update", .scalar .ctimestamp, false, none⟩,
       ⟨"staff_id", .autoSerial, true, some .vnull⟩]
    primaryKeyField := "staff_id" }

/-- Concrete instance of the spec-words variant at the `Staff` model. -/
theorem buildSelect_columns_witness :
    (SelectStmt.mk (fieldNames staffSchema) "staff" [] []).columns
        = staffSchema.fields.map FieldDescr.name ∧
    (SelectStmt.mk (fieldNames staffSchema) "staff" [] []).table
        = staffSchema.tableName :=
  buildSelect_columns staffSchema [] (SelectStmt.mk (fieldNames staffSchema) "staff" [] [])
    (by rfl)

/-- Modelled from the spec: the manager's `get` result selection (spec §6):
a single Record Instance row exactly when one row matched; `NotFoundError`
on zero rows; `MultipleResultsError` on two or more. -/
def getFromRows : List Row → Except DbError Row
  | [] => .error .notFound
  | [r] => .ok r
  | _ :: _ :: _ => .error .multipleResults

/-- Modelled from the spec: the manager's `get` operation over a table's
rows: filter, then demand exactly one match. -/
def getOp (rows : List Row) (filters : List (String × QueryOp)) : Except DbError Row :=
  getFromRows (filterRows rows filters)

/-- C7: `get` returns a single record exactly when the filter matches one
row; it fails with `NotFoundError` when zero rows match and with
`MultipleResultsError` when two or more rows match. -/
theorem getOp_spec (rows : List Row) (filters : List (String × QueryOp)) :
    ((filterRows rows filters).length = 0 → getOp rows filters = .error .notFound) ∧
    (∀ r, filterRows rows filters = [r] → getOp rows filters = .ok r) ∧
    (2 ≤ (filterRows rows filters).length → getOp rows filters = .error .multipleResults) ∧
    ((∃ r, getOp rows filters = .ok r) ↔ (filterRows rows filters).length = 1) := by
  refine ⟨?_, ?_, ?_, ?_⟩
  · intro h
    rw [List.length_eq_zero] at h
    simp [getOp, h, getFromRows]
  · intro r h
    simp [getOp, h, getFromRows]
  · intro h
    unfold getOp getFromRows
    match hm : filterRows rows filters with
    | [] => rw [hm] at h; simp at h
    | [r] => rw [hm] at h; simp at h
    | _ :: _ :: _ => rfl
  · constructor
    · rintro ⟨r, hr⟩
      unfold getOp getFromRows at hr
      match hm : filterRows rows filters with
      | [] => rw [hm] at hr; simp at hr
      | [x] => simp [hm]
      | _ :: _ :: _ => rw [hm] at hr; simp at hr
    · intro h
      rw [List.length_eq_one] at h
      obtain ⟨r, hr⟩ := h
      exact ⟨r, by simp [getOp, hr, getFromRows]⟩

/-- The store table rows observed in the notebook (`Store.objects.all()`),
with timestamp instants numbered by their microsecond reading. -/
def storeRow1 : Row :=
  [("store_id", .vint 1), ("manager_staff_id", .vint 1), ("address_id", .vint 1),
   ("last_update", .vtime 20220313201725)]

/-- Second store row of the notebook (`store_id=2`). -/
def storeRow2 : Row :=
  [("store_id", .vint 2), ("manager_staff_id", .vint 2), ("address_id", .vint 2),
   ("last_update", .vtime 20220315213154)]

/-- Witness for C7: the notebook's `Store.objects.get(store_id=2)` matches
exactly one of the two store rows and returns it; an unmatched filter fails
with `NotFoundError` and an all-matching filter with
`MultipleResultsError`. -/
theorem getOp_spec_witness :
    getOp [storeRow1, storeRow2] [("store_id", .eq (.vint 2))] = .ok storeRow2 ∧
    getOp [storeRow1, storeRow2] [("store_id", .eq (.vint 7))] = .error .notFound ∧
    getOp [storeRow1, storeRow2] [] = .error .multipleResults :=
  ⟨(getOp_spec [storeRow1, storeRow2] [("store_id", .eq (.vint 2))]).2.1 storeRow2 (by rfl),
   (getOp_spec [storeRow1, storeRow2] [("store_id", .eq (.vint 7))]).1 (by rfl),
   (getOp_spec [storeRow1, storeRow2] []).2.2.1 (by rfl)⟩

/-- Find a field descriptor by name, first match wins. -/
def findField (name : String) : List FieldDescr → Option FieldDescr
  | [] => none
  | f :: rest => if f.name = name then some f else findField name rest

/-- The user-settable field names: every declared field except the
auto-serial key (spec §3: the auto-serial field is always excluded from
user-settable arguments). -/
def settableNames (schema : SchemaEntry) : List String :=
  (schema.fields.filter (fun f => !f.kind.isAutoSerial)).map FieldDescr.name

/-- Modelled from the spec: validation of user-supplied field arguments
against the Schema Registry — a key that is not a settable declared field
fails with `UnknownFieldError` (spec §9, dynamic keyword arguments). -/
def validatePayloadKeys (schema : SchemaEntry) : List (String × Value) → Except DbError Unit
  | [] => .ok ()
  | (k, _) :: rest =>
    if k ∈ settableNames schema then validatePayloadKeys schema rest
    else .error (.unknownField k)

/-- Modelled from the spec: the Result Mapper's per-field coercion rule
(spec §4.5). A timestamp field accepts the literal string `"now"`, meaning
the current instant `now`, as well as stored instants; mismatched raw
values fail with `ValueCoercionError` naming the field. Null raw values
map to the no-value representation. -/
def coerceValue (fname : String) (now : Nat) : FieldKind → Value → Except DbError Value
  | _, .vnull => .ok .vnull
  | .scalar .cstring, .vstr s => .ok (.vstr s)
  | .scalar .cinteger, .vint n => .ok (.vint n)
  | .scalar .cboolean, .vbool b => .ok (.vbool b)
  | .scalar .ctimestamp, .vstr s =>
    if s = "now" then .ok (.vtime now) else .error (.valueCoercion fname)
  | .scalar .ctimestamp, .vtime t => .ok (.vtime t)
  | .foreignKey _ _, .vint n => .ok (.vint n)
  | .autoSerial, v => .ok v
  | _, _ => .error (.valueCoercion fname)

/-- Modelled from the spec: the initial value of one field of a directly
constructed Record Instance (spec §3): the auto-serial key is null
pre-insert; a supplied value is coerced by the field's rule; an omitted
field takes its declared default. -/
def initField (now : Nat) (payload : List (String × Value)) (f : FieldDescr) :
    Except DbError Value :=
  if f.kind.isAutoSerial then .ok .vnull
  else
    match alookup f.name payload with
    | some v => coerceValue f.name now f.kind v
    | none =>
      match f.default with
      | some d => .ok d
      | none => .error (.valueCoercion f.name)

/-- Initial values for every declared field, in declaration order. -/
def initFields (now : Nat) (payload : List (String × Value)) :
    List FieldDescr → Except DbError (List (String × Value))
  | [] => .ok []
  | f :: rest =>
    match initField now payload f with
    | .error e => .error e
    | .ok v =>
      match initFields now payload rest with
      | .error e => .error e
      | .ok vs => .ok ((f.name, v) :: vs)

/-- Modelled from the spec: a Record Instance (spec §3): a schema reference
plus the mapping from field name to coerced value. -/
structure RecordInst where
  schema : SchemaEntry
  values : List (String × Value)
  deriving DecidableEq, Repr

/-- Modelled from the spec: direct construction of a Record Instance from
user-supplied keyword values merged with field defaults (spec §3), the
notebook's `Staff(first_name="Harry", ...)` path. -/
def mkRecord (schema : SchemaEntry) (now : Nat) (payload : List (String × Value)) :
    Except DbError RecordInst :=
  match validatePayloadKeys schema payload with
  | .error e => .error e
  | .ok _ =>
    match initFields now payload schema.fields with
    | .error e => .error e
    | .ok vs => .ok ⟨schema, vs⟩

/-- The record's current primary-key value (null when not yet inserted). -/
def pkValue (rec : RecordInst) : Value :=
  rowValue rec.values rec.schema.primaryKeyField

/-- Modelled from the spec: a built UPDATE statement — table, SET column
and value lists, and the primary-key WHERE scope (spec §4.3). -/
structure UpdateStmt where
  table : String
  setCols : List String
  setVals : List Value
  whereCol : String
  whereVal : Value
  deriving DecidableEq, Repr

/-- A statement handed to the external executor. -/
inductive ExecStmt where
  | insertStmt (table : String) (cols : List String) (vals : List Value)
  | updateStmt (u : UpdateStmt)
  deriving DecidableEq, Repr

/-- The external executor's observable state: the primary table's rows and
the log of statements executed so far. -/
structure ExecState where
  db : List Row
  log : List ExecStmt
  deriving DecidableEq, Repr

/-- Apply a SET payload to a row: columns named in the payload take the
payload value, all other columns keep their value. -/
def applySet (payload : List (String × Value)) : Row → Row
  | [] => []
  | (k, v) :: rest => (k, (alookup k payload).getD v) :: applySet payload rest

/-- Outcome of a record-level update: the (possibly unchanged) record, the
(possibly unchanged) executor state, and the error if one was raised. -/
structure UpdateResult where
  record : RecordInst
  state : ExecState
  err : Option DbError
  deriving DecidableEq, Repr

/-- Coerce each value of an update payload by its field's rule, keeping the
keys and their order. -/
def coercePayload (schema : SchemaEntry) (now : Nat) :
    List (String × Value) → Except DbError (List (String × Value))
  | [] => .ok []
  | (k, v) :: rest =>
    match findField k schema.fields with
    | none => .error (.unknownField k)
    | some f =>
      match coerceValue k now f.kind v with
      | .error e => .error e
      | .ok w =>
        match coercePayload schema now rest with
        | .error e => .error e
        | .ok ws => .ok ((k, w) :: ws)

/-- Modelled from the spec: the record-level `update` operation
(spec §4.3/§7): fails with `MissingKeyError` before any executor call when
the record has no primary-key value; otherwise validates and coerces the
payload, executes one UPDATE scoped by the current primary-key value whose
SET clause lists only the payload's fields, and only then updates the
in-memory record. On any failure the state and record are left unchanged. -/
def updateOp (now : Nat) (rec : RecordInst) (payload : List (String × Value))
    (st : ExecState) : UpdateResult :=
  if pkValue rec = .vnull then ⟨rec, st, some .missingKey⟩
  else
    match validatePayloadKeys rec.schema payload with
    | .error e => ⟨rec, st, some e⟩
    | .ok _ =>
      match coercePayload rec.schema now payload with
      | .error e => ⟨rec, st, some e⟩
      | .ok payload2 =>
        let stmt : UpdateStmt :=
          ⟨rec.schema.tableName, payload2.map Prod.fst, payload2.map Prod.snd,
           rec.schema.primaryKeyField, pkValue rec⟩
        let db2 := st.db.map (fun row =>
          if rowValue row stmt.whereCol = stmt.whereVal then applySet payload2 row else row)
        ⟨⟨rec.schema, applySet payload2 rec.values⟩,
         ⟨db2, st.log ++ [.updateStmt stmt]⟩, none⟩

/-- The column/value entries of a generated INSERT: every record value
except the auto-serial key when it is still null (spec §4.3: the column
list excludes the auto-serial field unless explicitly supplied). -/
def insertEntries (rec : RecordInst) : List (String × Value) :=
  rec.values.filter (fun kv =>
    if kv.1 = rec.schema.primaryKeyField ∧ kv.2 = Value.vnull then false else true)

/-- Rebind one key of a row to a new value, leaving other keys alone. -/
def setKey (pk : String) (w : Value) (kv : String × Value) : String × Value :=
  if kv.1 = pk then (kv.1, w) else kv

/-- The primary-key value the inserted row ends up with: the
database-assigned serial when the record had none, else the
client-supplied value (spec §4.3 INSERT). -/
def insertedPk (rec : RecordInst) (assigned : Value) : Value :=
  if pkValue rec = .vnull then assigned else pkValue rec

/-- Modelled from the spec: the record-level `insert` operation
(spec §4.3/§6): executes one INSERT whose column list is `insertEntries`,
the database assigns the serial key (`assigned`) when none was supplied,
and the Result Mapper populates the in-memory record's primary key from
it. -/
def insertOp (rec : RecordInst) (assigned : Value) (st : ExecState) :
    RecordInst × ExecState :=
  let pk := rec.schema.primaryKeyField
  let newPk := insertedPk rec assigned
  let newVals := rec.values.map (setKey pk newPk)
  let entries := insertEntries rec
  (⟨rec.schema, newVals⟩,
   ⟨st.db ++ [newVals],
    st.log ++ [.insertStmt rec.schema.tableName (entries.map Prod.fst) (entries.map Prod.snd)]⟩)

/-- Modelled from the spec: Schema Registry registration (spec §4.1/§3):
a model declaration is accepted exactly when its field names are distinct
and exactly one field is the auto-generated serial key, which becomes the
primary key. -/
def register (table : String) (fields : List FieldDescr) : Option SchemaEntry :=
  match (fields.filter (fun f => f.kind.isAutoSerial)).map FieldDescr.name with
  | [pk] => if (fields.map FieldDescr.name).Nodup then some ⟨table, fields, pk⟩ else none
  | _ => none

/-- Modelled from the spec: the process-wide database contents, one row
list per table name. -/
abbrev Database : Type := List (String × List Row)

/-- The rows of a table (empty when the table is unknown). -/
def tableRows (db : Database) (t : String) : List Row :=
  (alookup t db).getD []

/-- Modelled from the spec: the Relation Resolver and `fetch_related`
manager operation (spec §4.4/§6): the foreign-key field is resolved through
the registry (failing with `UnknownModelError` for an unregistered target),
an INNER JOIN on `source.fkColumn = target.targetColumn` is taken, and each
joined row is the primary row's bindings followed by the related row's, so
lookups resolve name collisions with left-to-right precedence. -/
def fetch_related (registry : List (String × SchemaEntry)) (schema : SchemaEntry)
    (fk : String) (db : Database) : Except DbError (List Row) :=
  match findField fk schema.fields with
  | none => .error (.unknownField fk)
  | some f =>
    match f.kind with
    | .foreignKey tt tf =>
      match alookup tt registry with
      | none => .error .unknownModel
      | some tgt =>
        .ok ((tableRows db schema.tableName).flatMap (fun p =>
          ((tableRows db tgt.tableName).filter
              (fun s => decide (rowValue s tf = rowValue p fk))).map
            (fun sr => p ++ sr)))
    | _ => .error (.unknownField fk)

section Lemmas

theorem alookup_eq_none_of_not_mem {α : Type} (col : String) (l : List (String × α))
    (h : col ∉ l.map Prod.fst) : alookup col l = none := by
  induction l with
  | nil => rfl
  | cons kv rest ih =>
    obtain ⟨k, v⟩ := kv
    simp only [List.map_cons, List.mem_cons] at h
    push_neg at h
    simp [alookup, Ne.symm h.1, ih h.2]

theorem alookup_append_left {α : Type} (col : String) (p s : List (String × α))
    (h : col ∈ p.map Prod.fst) : alookup col (p ++ s) = alookup col p := by
  induction p with
  | nil => simp at h
  | cons kv rest ih =>
    obtain ⟨k, v⟩ := kv
    by_cases hk : k = col
    · simp [alookup, hk]
    · simp only [List.map_cons, List.mem_cons] at h
      rcases h with h | h

      · exact absurd h.symm hk
      · simp [alookup, hk, ih h]

theorem alookup_append_right {α : Type} (col : String) (p s : List (String × α))
    (h : col ∉ p.map Prod.fst) : alookup col (p ++ s) = alookup col s := by
  induction p with
  | nil => rfl
  | cons kv rest ih =>
    obtain ⟨k, v⟩ := kv
    simp only [List.map_cons, List.mem_cons] at h
    push_neg at h
    simp [alookup, Ne.symm h.1, ih h.2]

theorem alookup_applySet_not_mem (col : String) (payload : List (String × Value)) (row : Row)
    (h : col ∉ payload.map Prod.fst) :
    alookup col (applySet payload row) = alookup col row := by
  induction row with
  | nil => rfl
  | cons kv rest ih =>
    obtain ⟨k, v⟩ := kv
    by_cases hk : k = col
    · subst hk
      simp [applySet, alookup, alookup_eq_none_of_not_mem k payload h]
    · simp [applySet, alookup, hk, ih]

theorem rowValue_applySet_not_mem (col : String) (payload : List (String × Value)) (row : Row)
    (h : col ∉ payload.map Prod.fst) :
    rowValue (applySet payload row) col = rowValue row col := by
  simp [rowValue, alookup_applySet_not_mem col payload row h]

theorem setKey_fst_eq (pk : String) (w : Value) (k : String) (v : Value) (h : k = pk) :
    setKey pk w (k, v) = (k, w) := by
  unfold setKey
  rw [if_pos (show (k, v).1 = pk from h)]

theorem setKey_fst_ne (pk : String) (w : Value) (k : String) (v : Value) (h : ¬k = pk) :
    setKey pk w (k, v) = (k, v) := by
  unfold setKey
  rw [if_neg (show ¬(k, v).1 = pk from h)]

theorem alookup_setPk (pk : String) (w : Value) (l : List (String × Value))
    (h : pk ∈ l.map Prod.fst) :
    alookup pk (l.map (setKey pk w)) = some w := by
  induction l with
  | nil => simp at h
  | cons kv rest ih =>
    obtain ⟨k, v⟩ := kv
    by_cases hk : k = pk
    · rw [List.map_cons, setKey_fst_eq pk w k v hk]
      simp [alookup, hk]
    · rw [List.map_cons, setKey_fst_ne pk w k v hk]
      simp only [List.map_cons, List.mem_cons] at h
      rcases h with h | h
      · exact absurd h.symm hk
      · simp [alookup, hk, ih h]

theorem alookup_setPk_ne (pk col : String) (w : Value) (l : List (String × Value))
    (h : col ≠ pk) :
    alookup col (l.map (setKey pk w)) = alookup col l := by
  induction l with
  | nil => rfl
  | cons kv rest ih =>
    obtain ⟨k, v⟩ := kv
    by_cases hk : k = pk
    · rw [List.map_cons, setKey_fst_eq pk w k v hk]
      have hkc : ¬k = col := by rw [hk]; exact fun hc => h hc.symm
      simp [alookup, hkc, ih]
    · rw [List.map_cons, setKey_fst_ne pk w k v hk]
      by_cases hc : k = col
      · simp [alookup, hc]
      · simp [alookup, hc, ih]

theorem coercePayload_keys (schema : SchemaEntry) (now : Nat) :
    ∀ (p p2 : List (String × Value)), coercePayload schema now p = .ok p2 →
      p2.map Prod.fst = p.map Prod.fst := by
  intro p
  induction p with
  | nil => intro p2 h; simp [coercePayload] at h; simp [h.symm]
  | cons kv rest ih =>
    obtain ⟨k, v⟩ := kv
    intro p2 h
    simp only [coercePayload] at h
    cases hf : findField k schema.fields with
    | none => rw [hf] at h; simp at h
    | some f =>
      rw [hf] at h
      simp only at h
      cases hc : coerceValue k now f.kind v with
      | error e => rw [hc] at h; simp at h
      | ok w =>
        rw [hc] at h
        simp only at h
        cases hr : coercePayload schema now rest with
        | error e => rw [hr] at h; simp at h
        | ok ws =>
          rw [hr] at h
          simp only [Except.ok.injEq] at h
          subst h
          simp [ih ws hr]

theorem validatePayloadKeys_mem (schema : SchemaEntry) :
    ∀ (p : List (String × Value)), validatePayloadKeys schema p = .ok () →
      ∀ k ∈ p.map Prod.fst, k ∈ settableNames schema := by
  intro p
  induction p with
  | nil => intro _ k hk; simp at hk
  | cons kv rest ih =>
    obtain ⟨k0, v0⟩ := kv
    intro h k hk
    simp only [validatePayloadKeys] at h
    by_cases hmem : k0 ∈ settableNames schema
    · rw [if_pos hmem] at h
      simp only [List.map_cons, List.mem_cons] at hk
      rcases hk with hk | hk
      · subst hk; exact hmem
      · exact ih h k hk
    · rw [if_neg hmem] at h; simp at h

theorem initFields_keys (now : Nat) (payload : List (String × Value)) :
    ∀ (fields : List FieldDescr) (vs : List (String × Value)),
      initFields now payload fields = .ok vs →
      vs.map Prod.fst = fields.map FieldDescr.name := by
  intro fields
  induction fields with
  | nil => intro vs h; simp [initFields] at h; simp [h.symm]
  | cons f rest ih =>
    intro vs h
    simp only [initFields] at h
    cases hi : initField now payload f with
    | error e => rw [hi] at h; simp at h
    | ok v =>
      rw [hi] at h
      simp only at h
      cases hr : initFields now payload rest with
      | error e => rw [hr] at h; simp at h
      | ok ws =>
        rw [hr] at h
        simp only [Except.ok.injEq] at h
        subst h
        simp [ih ws hr]

theorem initFields_alookup (now : Nat) (payload : List (String × Value)) :
    ∀ (fields : List FieldDescr) (vs : List (String × Value)) (f : FieldDescr),
      (fields.map FieldDescr.name).Nodup → f ∈ fields →
      initFields now payload fields = .ok vs →
      ∃ w, initField now payload f = .ok w ∧ alookup f.name vs = some w := by
  intro fields
  induction fields with
  | nil => intro vs f _ hf; simp at hf
  | cons g rest ih =>
    intro vs f hnodup hf h
    simp only [initFields] at h
    cases hi : initField now payload g with
    | error e => rw [hi] at h; simp at h
    | ok v =>
      rw [hi] at h
      simp only at h
      cases hr : initFields now payload rest with
      | error e => rw [hr] at h; simp at h
      | ok ws =>
        rw [hr] at h
        simp only [Except.ok.injEq] at h
        subst h
        rcases List.mem_cons.mp hf with hfg | hfr
        · subst hfg
          exact ⟨v, hi, by simp [alookup]⟩
        · have hne : f.name ≠ g.name := by
            simp only [List.map_cons, List.nodup_cons] at hnodup
            intro heq
            exact hnodup.1 (heq ▸ List.mem_map_of_mem FieldDescr.name hfr)
          obtain ⟨w, hw1, hw2⟩ := ih ws f (by
            simp only [List.map_cons, List.nodup_cons] at hnodup
            exact hnodup.2) hfr hr
          exact ⟨w, hw1, by simp [alookup, Ne.symm hne, hw2]⟩

theorem alookup_of_mem_nodup (l : List (String × Value)) (kv : String × Value)
    (hnodup : (l.map Prod.fst).Nodup) (hmem : kv ∈ l) :
    alookup kv.1 l = some kv.2 := by
  induction l with
  | nil => simp at hmem
  | cons hd rest ih =>
    obtain ⟨k, v⟩ := hd
    rcases List.mem_cons.mp hmem with h | h
    · subst h; simp [alookup]
    · have hne : k ≠ kv.1 := by
        simp only [List.map_cons, List.nodup_cons] at hnodup
        intro heq
        exact hnodup.1 (heq ▸ List.mem_map_of_mem Prod.fst h)
      simp only [List.map_cons, List.nodup_cons] at hnodup
      simp [alookup, hne, ih hnodup.2 h]

/-- A schema as produced by registration: exactly one auto-serial field,
named as the primary key, among pairwise distinct field names. -/
def SchemaEntry.wellFormed (s : SchemaEntry) : Prop :=
  ((s.fields.filter (fun f => f.kind.isAutoSerial)).map FieldDescr.name
      = [s.primaryKeyField]) ∧
  (s.fields.map FieldDescr.name).Nodup

instance (s : SchemaEntry) : Decidable s.wellFormed := by
  unfold SchemaEntry.wellFormed
  infer_instance

theorem wellFormed_auto_field (s : SchemaEntry) (h : s.wellFormed) :
    ∃ a ∈ s.fields, a.kind.isAutoSerial = true ∧ a.name = s.primaryKeyField := by
  obtain ⟨h1, _⟩ := h
  cases hf : s.fields.filter (fun f => f.kind.isAutoSerial) with
  | nil => rw [hf] at h1; simp at h1
  | cons a t =>
    rw [hf] at h1
    simp only [List.map_cons, List.cons.injEq] at h1
    have ha := List.mem_filter.mp (hf ▸ List.mem_cons_self a t)
    exact ⟨a, ha.1, by simpa using ha.2, h1.1⟩

theorem pk_not_settable (s : SchemaEntry) (h : s.wellFormed) :
    s.primaryKeyField ∉ settableNames s := by
  intro hmem
  obtain ⟨a, haf, haauto, haname⟩ := wellFormed_auto_field s h
  unfold settableNames at hmem
  obtain ⟨g, hgf, hgname⟩ := List.mem_map.mp hmem
  have hg := List.mem_filter.mp hgf
  have hag : a = g :=
    List.inj_on_of_nodup_map h.2 haf hg.1 (by rw [haname, hgname])
  rw [hag] at haauto
  simp [haauto] at hg

end Lemmas

/-- C5: calling `update` on a Record Instance whose primary-key value is
still null (no prior insert) raises `MissingKeyError`, leaves the executor
state untouched — the database rows and the statement log are unchanged, so
the executor is never called — and leaves the record's in-memory state
unchanged. -/
theorem updateOp_missing_key (now : Nat) (rec : RecordInst)
    (payload : List (String × Value)) (st : ExecState)
    (h : pkValue rec = .vnull) :
    updateOp now rec payload st = ⟨rec, st, some .missingKey⟩ := by
  simp [updateOp, h]

/-- The keyword payload of the notebook's `Staff(first_name="Harry", ...)`
construction, in the order the arguments were written, with
`last_update="now"`. -/
def staffPayloadEx : List (String × Value) :=
  [("first_name", .vstr "Harry"), ("last_name", .vstr "Potter"),
   ("active", .vbool true), ("store_id", .vint 1), ("address_id", .vint 2),
   ("email", .vstr "Harry.Potter@hogwarts.com"), ("username", .vstr "theboywholived"),
   ("password", .vstr "alohomora"), ("last_update", .vstr "now")]

/-- The instant at which the notebook constructed `new_staff`
(2022-03-15 21:38:00). -/
def staffNow : Nat := 20220315213800

/-- The `new_staff` Record Instance as shown by `new_staff.data` in the
notebook: all declared fields in declaration order, `last_update` resolved
to the construction instant, `staff_id` still null. -/
def staffRecordEx : RecordInst :=
  { schema := staffSchema
    values :=
      [("first_name", .vstr "Harry"), ("last_name", .vstr "Potter"),
       ("address_id", .vint 2), ("email", .vstr "Harry.Potter@hogwarts.com"),
       ("store_id", .vint 1), ("active", .vbool true),
       ("username", .vstr "theboywholived"), ("password", .vstr "alohomora"),
       ("last_update", .vtime staffNow), ("staff_id", .vnull)] }

/-- Witness for C5: updating the notebook's not-yet-inserted `new_staff`
record fails with `MissingKeyError` and changes nothing. -/
theorem updateOp_missing_key_witness :
    updateOp staffNow staffRecordEx [("address_id", .vint 3)] ⟨[], []⟩
      = ⟨staffRecordEx, ⟨[], []⟩, some .missingKey⟩ :=
  updateOp_missing_key staffNow staffRecordEx [("address_id", .vint 3)] ⟨[], []⟩ (by rfl)

/-- C4: a successful record-level update executes exactly one UPDATE
statement, scoped by the record's current primary-key value (never a bulk
predicate), whose SET clause lists exactly the fields present in the
payload; and row for row, every column not named in the payload reads the
same value after the update as before. -/
theorem updateOp_spec (now : Nat) (rec : RecordInst) (payload : List (String × Value))
    (st : ExecState) (hok : (updateOp now rec payload st).err = none) :
    ∃ stmt : UpdateStmt,
      (updateOp now rec payload st).state.log = st.log ++ [.updateStmt stmt] ∧
      stmt.whereCol = rec.schema.primaryKeyField ∧
      stmt.whereVal = pkValue rec ∧
      stmt.setCols = payload.map Prod.fst ∧
      ∀ col, col ∉ payload.map Prod.fst →
        List.Forall₂ (fun oldRow newRow => rowValue newRow col = rowValue oldRow col)
          st.db (updateOp now rec payload st).state.db := by
  by_cases hpk : pkValue rec = .vnull
  · exfalso; simp [updateOp, hpk] at hok
  · cases hv : validatePayloadKeys rec.schema payload with
    | error e => exfalso; simp [updateOp, hpk, hv] at hok
    | ok u =>
      cases hc : coercePayload rec.schema now payload with
      | error e => exfalso; simp [updateOp, hpk, hv, hc] at hok
      | ok payload2 =>
        have hkeys := coercePayload_keys rec.schema now payload payload2 hc
        have hdb : (updateOp now rec payload st).state.db
            = st.db.map (fun row =>
                if rowValue row rec.schema.primaryKeyField = pkValue rec
                then applySet payload2 row else row) := by
          simp [updateOp, hpk, hv, hc]
        refine ⟨⟨rec.schema.tableName, payload2.map Prod.fst, payload2.map Prod.snd,
                rec.schema.primaryKeyField, pkValue rec⟩, ?_, rfl, rfl, ?_, ?_⟩
        · simp [updateOp, hpk, hv, hc]
        · simp [hkeys]
        · intro col hcol
          rw [hdb, List.forall₂_map_right_iff]
          rw [List.forall₂_same]
          intro row _
          by_cases hm : rowValue row rec.schema.primaryKeyField = pkValue rec
          · rw [if_pos hm]
            exact rowValue_applySet_not_mem col payload2 row (hkeys ▸ hcol)
          · rw [if_neg hm]

/-- The `Store` model schema as declared in the notebook: a foreign key
into `address`, a timestamp, an optional staff foreign key, and the
auto-serial `store_id`. -/
def storeSchema : SchemaEntry :=
  { tableName := "store"
    fields :=
      [⟨"address_id", .foreignKey "address" "address_id", false, none⟩,
       ⟨"last_update", .scalar .ctimestamp, false, none⟩,
       ⟨"manager_staff_id", .foreignKey "staff" "staff_id", true, some .vnull⟩,
       ⟨"store_id", .autoSerial, true, some .vnull⟩]
    primaryKeyField := "store_id" }

/-- The `store` table rows and the in-memory `store` record at the point of
the notebook's `store.update(address_id=3)` call. -/
def storeRecordEx : RecordInst :=
  { schema := storeSchema
    values :=
      [("address_id", .vint 2), ("last_update", .vtime 20220315213154),
       ("manager_staff_id", .vint 2), ("store_id", .vint 2)] }

/-- Witness for C4: the notebook's `store.update(address_id=3)` against the
two-row store table produces one UPDATE scoped by `store_id = 2` whose SET
clause is exactly `address_id`, and leaves every other column of both rows
unchanged. -/
theorem updateOp_spec_witness :
    ∃ stmt : UpdateStmt,
      (updateOp 20220315214254 storeRecordEx [("address_id", .vint 3)]
          ⟨[storeRow1, storeRow2], []⟩).state.log
        = [] ++ [.updateStmt stmt] ∧
      stmt.whereCol = storeRecordEx.schema.primaryKeyField ∧
      stmt.whereVal = pkValue storeRecordEx ∧
      stmt.setCols = [("address_id", Value.vint 3)].map Prod.fst ∧
      ∀ col, col ∉ [("address_id", Value.vint 3)].map Prod.fst →
        List.Forall₂ (fun oldRow newRow => rowValue newRow col = rowValue oldRow col)
          [storeRow1, storeRow2]
          (updateOp 20220315214254 storeRecordEx [("address_id", .vint 3)]
            ⟨[storeRow1, storeRow2], []⟩).state.db :=
  updateOp_spec 20220315214254 storeRecordEx [("address_id", .vint 3)]
    ⟨[storeRow1, storeRow2], []⟩ (by rfl)

/-- C10: a record constructed directly from keyword values carries every
declared field in declaration order; a field omitted from the constructor
that declares a default takes that default value; and the auto-serial field
is present with the null value before any insert. -/
theorem mkRecord_spec (schema : SchemaEntry) (now : Nat) (payload : List (String × Value))
    (r : RecordInst)
    (hnodup : (schema.fields.map FieldDescr.name).Nodup)
    (h : mkRecord schema now payload = .ok r) :
    r.values.map Prod.fst = schema.fields.map FieldDescr.name ∧
    (∀ f ∈ schema.fields, f.kind.isAutoSerial = false →
      alookup f.name payload = none → ∀ d, f.default = some d →
      alookup f.name r.values = some d) ∧
    (∀ f ∈ schema.fields, f.kind.isAutoSerial = true →
      alookup f.name r.values = some .vnull) := by
  unfold mkRecord at h
  cases hv : validatePayloadKeys schema payload with
  | error e => rw [hv] at h; simp at h
  | ok u =>
    rw [hv] at h
    simp only at h
    cases hi : initFields now payload schema.fields with
    | error e => rw [hi] at h; simp at h
    | ok vs =>
      rw [hi] at h
      simp only [Except.ok.injEq] at h
      subst h
      refine ⟨initFields_keys now payload schema.fields vs hi, ?_, ?_⟩
      · intro f hf hauto hpay d hdef
        obtain ⟨w, hw1, hw2⟩ := initFields_alookup now payload schema.fields vs f hnodup hf hi
        have hwd : w = d := by
          simp [initField, hauto, hpay, hdef] at hw1
          exact hw1.symm
        rw [← hwd]
        exact hw2
      · intro f hf hauto
        obtain ⟨w, hw1, hw2⟩ := initFields_alookup now payload schema.fields vs f hnodup hf hi
        have hwd : w = .vnull := by
          simp [initField, hauto] at hw1
          exact hw1.symm
        rw [← hwd]
        exact hw2

/-- Witness for C10: the notebook's `new_staff` construction yields all ten
declared fields in declaration order, with `staff_id` null. -/
theorem mkRecord_spec_witness :
    staffRecordEx.values.map Prod.fst = staffSchema.fields.map FieldDescr.name ∧
    (∀ f ∈ staffSchema.fields, f.kind.isAutoSerial = false →
      alookup f.name staffPayloadEx = none → ∀ d, f.default = some d →
      alookup f.name staffRecordEx.values = some d) ∧
    (∀ f ∈ staffSchema.fields, f.kind.isAutoSerial = true →
      alookup f.name staffRecordEx.values = some .vnull) :=
  mkRecord_spec staffSchema staffNow staffPayloadEx staffRecordEx (by decide) (by rfl)

/-- C2: inserting a record and immediately fetching by the primary key the
insert populated yields exactly the inserted row, whose non-key field
values are the values the record carried; and a timestamp field supplied as
the literal string `"now"` is materialized as the concrete construction
instant, which is a different value from the string `"now"`. -/
theorem insert_roundtrip (rec : RecordInst) (assigned : Value) (st : ExecState)
    (hpk : rec.schema.primaryKeyField ∈ rec.values.map Prod.fst)
    (hfresh : ∀ row ∈ st.db,
      rowValue row rec.schema.primaryKeyField ≠ insertedPk rec assigned) :
    getOp (insertOp rec assigned st).2.db
        [(rec.schema.primaryKeyField, .eq (insertedPk rec assigned))]
      = .ok (insertOp rec assigned st).1.values ∧
    (∀ col, col ≠ rec.schema.primaryKeyField →
      alookup col (insertOp rec assigned st).1.values = alookup col rec.values) ∧
    (∀ (schema : SchemaEntry) (now : Nat) (payload : List (String × Value))
        (f : FieldDescr) (r : RecordInst),
      (schema.fields.map FieldDescr.name).Nodup → f ∈ schema.fields →
      f.kind = .scalar .ctimestamp → alookup f.name payload = some (.vstr "now") →
      mkRecord schema now payload = .ok r →
      alookup f.name r.values = some (.vtime now) ∧ Value.vtime now ≠ .vstr "now") := by
  have hvals : (insertOp rec assigned st).1.values
      = rec.values.map (setKey rec.schema.primaryKeyField (insertedPk rec assigned)) := by
    simp [insertOp]
  have hdb : (insertOp rec assigned st).2.db
      = st.db ++ [rec.values.map (setKey rec.schema.primaryKeyField (insertedPk rec assigned))] := by
    simp [insertOp]
  refine ⟨?_, ?_, ?_⟩
  · rw [hdb, hvals]
    unfold getOp filterRows
    rw [List.filter_append]
    have h1 : st.db.filter (fun r => rowMatches r
        [(rec.schema.primaryKeyField, .eq (insertedPk rec assigned))]) = [] := by
      rw [List.filter_eq_nil_iff]
      intro row hrow
      simp [rowMatches, evalOp]
      exact hfresh row hrow
    have h2 : rowMatches
        (rec.values.map (setKey rec.schema.primaryKeyField (insertedPk rec assigned)))
        [(rec.schema.primaryKeyField, .eq (insertedPk rec assigned))] = true := by
      simp [rowMatches, evalOp, rowValue,
        alookup_setPk rec.schema.primaryKeyField (insertedPk rec assigned) rec.values hpk]
    rw [h1]
    simp [List.filter, h2, getFromRows]
  · intro col hcol
    rw [hvals]
    exact alookup_setPk_ne rec.schema.primaryKeyField col (insertedPk rec assigned)
      rec.values hcol
  · intro schema now payload f r hnodup hf hkind hpay h
    unfold mkRecord at h
    cases hv : validatePayloadKeys schema payload with
    | error e => rw [hv] at h; simp at h
    | ok u =>
      rw [hv] at h
      simp only at h
      cases hi : initFields now payload schema.fields with
      | error e => rw [hi] at h; simp at h
      | ok vs =>
        rw [hi] at h
        simp only [Except.ok.injEq] at h
        subst h
        obtain ⟨w, hw1, hw2⟩ := initFields_alookup now payload schema.fields vs f hnodup hf hi
        have hwd : w = .vtime now := by
          simp [initField, hkind, FieldKind.isAutoSerial, hpay, coerceValue] at hw1
          exact hw1.symm
        rw [← hwd]
        exact ⟨hw2, by rw [hwd]; simp⟩

/-- Witness for C2: inserting the notebook's `new_staff` into an empty
staff table with database-assigned key 3, then fetching `staff_id = 3`,
returns exactly the inserted row; the non-key `last_update` value is
preserved and was materialized from `"now"` as the concrete instant. -/
theorem insert_roundtrip_witness :
    getOp (insertOp staffRecordEx (.vint 3) ⟨[], []⟩).2.db
        [(staffRecordEx.schema.primaryKeyField, .eq (insertedPk staffRecordEx (.vint 3)))]
      = .ok (insertOp staffRecordEx (.vint 3) ⟨[], []⟩).1.values ∧
    alookup "last_update" (insertOp staffRecordEx (.vint 3) ⟨[], []⟩).1.values
      = alookup "last_update" staffRecordEx.values ∧
    (alookup "last_update" staffRecordEx.values = some (.vtime staffNow) ∧
      Value.vtime staffNow ≠ .vstr "now") :=
  ⟨(insert_roundtrip staffRecordEx (.vint 3) ⟨[], []⟩ (by decide) (by simp)).1,
   (insert_roundtrip staffRecordEx (.vint 3) ⟨[], []⟩ (by decide) (by simp)).2.1
     "last_update" (by decide),
   (insert_roundtrip staffRecordEx (.vint 3) ⟨[], []⟩ (by decide) (by simp)).2.2
     staffSchema staffNow staffPayloadEx
     ⟨"last_update", .scalar .ctimestamp, false, none⟩ staffRecordEx
     (by decide) (by decide) rfl (by rfl) (by rfl)⟩

theorem alookup_mem {α : Type} (k : String) (l : List (String × α)) (v : α)
    (h : alookup k l = some v) : (k, v) ∈ l := by
  induction l with
  | nil => simp [alookup] at h
  | cons kv rest ih =>
    obtain ⟨k0, v0⟩ := kv
    by_cases hk : k0 = k
    · subst hk
      simp [alookup] at h
      subst h
      exact List.mem_cons_self _ _
    · simp only [alookup, if_neg hk] at h
      exact List.mem_cons_of_mem _ (ih h)

/-- C9: the auto-serial primary-key lifecycle. Registration succeeds only
with exactly one auto-serial field, which becomes the primary key; a
generated INSERT's column list excludes the auto-serial column when the
record holds no value for it and includes it when a value was explicitly
supplied; a directly constructed record's primary-key value is null until
the first insert; after insert it equals the database-assigned (or
client-supplied) value; and a successful update never changes it. -/
theorem autoserial_pk_lifecycle :
    (∀ (table : String) (fields : List FieldDescr) (e : SchemaEntry),
      register table fields = some e →
      (e.fields.filter (fun f => f.kind.isAutoSerial)).map FieldDescr.name
        = [e.primaryKeyField]) ∧
    (∀ rec : RecordInst, (rec.values.map Prod.fst).Nodup → pkValue rec = .vnull →
      rec.schema.primaryKeyField ∉ (insertEntries rec).map Prod.fst) ∧
    (∀ rec : RecordInst, pkValue rec ≠ .vnull →
      rec.schema.primaryKeyField ∈ (insertEntries rec).map Prod.fst) ∧
    (∀ (schema : SchemaEntry) (now : Nat) (payload : List (String × Value)) (r : RecordInst),
      schema.wellFormed → mkRecord schema now payload = .ok r → pkValue r = .vnull) ∧
    (∀ (rec : RecordInst) (assigned : Value) (st : ExecState),
      rec.schema.primaryKeyField ∈ rec.values.map Prod.fst →
      pkValue (insertOp rec assigned st).1 = insertedPk rec assigned) ∧
    (∀ (now : Nat) (rec : RecordInst) (payload : List (String × Value)) (st : ExecState),
      rec.schema.wellFormed → (updateOp now rec payload st).err = none →
      pkValue (updateOp now rec payload st).record = pkValue rec) := by
  refine ⟨?_, ?_, ?_, ?_, ?_, ?_⟩
  · intro table fields e h
    unfold register at h
    split at h
    next pk heq =>
      split at h
      next hnd =>
        simp only [Option.some.injEq] at h
        subst h
        exact heq
      next hnd => simp at h
    next => simp at h
  · intro rec hnodup hnull hmem
    obtain ⟨kv, hkvf, hfst⟩ := List.mem_map.mp hmem
    have hfilter := List.mem_filter.mp hkvf
    have hcond : ¬(kv.1 = rec.schema.primaryKeyField ∧ kv.2 = Value.vnull) := by
      intro hc
      have := hfilter.2
      rw [if_pos hc] at this
      exact Bool.false_ne_true this
    have hv2 : kv.2 ≠ Value.vnull := fun h2 => hcond ⟨hfst, h2⟩
    have halo := alookup_of_mem_nodup rec.values kv hnodup hfilter.1
    rw [hfst] at halo
    have : pkValue rec = kv.2 := by
      unfold pkValue rowValue
      rw [halo]
      rfl
    exact hv2 (this ▸ hnull)
  · intro rec hnn
    cases halo : alookup rec.schema.primaryKeyField rec.values with
    | none =>
      exfalso
      apply hnn
      unfold pkValue rowValue
      rw [halo]
      rfl
    | some v =>
      have hvnn : v ≠ Value.vnull := by
        intro hv
        apply hnn
        unfold pkValue rowValue
        rw [halo, hv]
        rfl
      have hmem := alookup_mem rec.schema.primaryKeyField rec.values v halo
      have hkeep : (rec.schema.primaryKeyField, v) ∈ insertEntries rec := by
        apply List.mem_filter.mpr
        refine ⟨hmem, ?_⟩
        rw [if_neg]
        rintro ⟨_, hv2⟩
        exact hvnn hv2
      exact List.mem_map.mpr ⟨(rec.schema.primaryKeyField, v), hkeep, rfl⟩
  · intro schema now payload r hwf h
    obtain ⟨a, haf, haauto, haname⟩ := wellFormed_auto_field schema hwf
    unfold mkRecord at h
    cases hv : validatePayloadKeys schema payload with
    | error e => rw [hv] at h; simp at h
    | ok u =>
      rw [hv] at h
      simp only at h
      cases hi : initFields now payload schema.fields with
      | error e => rw [hi] at h; simp at h
      | ok vs =>
        rw [hi] at h
        simp only [Except.ok.injEq] at h
        subst h
        obtain ⟨w, hw1, hw2⟩ := initFields_alookup now payload schema.fields vs a hwf.2 haf hi
        have hwd : w = .vnull := by
          simp [initField, haauto] at hw1
          exact hw1.symm
        unfold pkValue rowValue
        simp only
        rw [← haname, hw2, hwd]
        rfl
  · intro rec assigned st hpk
    have hvals : (insertOp rec assigned st).1.values
        = rec.values.map (setKey rec.schema.primaryKeyField (insertedPk rec assigned)) := by
      simp [insertOp]
    have hschema : (insertOp rec assigned st).1.schema = rec.schema := by
      simp [insertOp]
    unfold pkValue rowValue
    rw [hvals, hschema, alookup_setPk rec.schema.primaryKeyField (insertedPk rec assigned)
      rec.values hpk]
    rfl
  · intro now rec payload st hwf hok
    by_cases hpk : pkValue rec = .vnull
    · exfalso; simp [updateOp, hpk] at hok
    · cases hv : validatePayloadKeys rec.schema payload with
      | error e => exfalso; simp [updateOp, hpk, hv] at hok
      | ok u =>
        cases hc : coercePayload rec.schema now payload with
        | error e => exfalso; simp [updateOp, hpk, hv, hc] at hok
        | ok payload2 =>
          have hkeys := coercePayload_keys rec.schema now payload payload2 hc
          have hrec : (updateOp now rec payload st).record
              = ⟨rec.schema, applySet payload2 rec.values⟩ := by
            simp [updateOp, hpk, hv, hc]
          have hpknotin : rec.schema.primaryKeyField ∉ payload2.map Prod.fst := by
            rw [hkeys]
            intro hmem
            cases u
            exact pk_not_settable rec.schema hwf
              (validatePayloadKeys_mem rec.schema payload hv
                rec.schema.primaryKeyField hmem)
          rw [hrec]
          unfold pkValue
          simp only
          exact rowValue_applySet_not_mem rec.schema.primaryKeyField payload2
            rec.values hpknotin

/-- Witness for C9 at the notebook's models: `Staff` registration yields
`staff_id` as the unique auto-serial primary key; the fresh `new_staff`
INSERT omits `staff_id` while the already-keyed `store` record's INSERT
would include `store_id`; `new_staff.staff_id` is null before insert and 3
after; and the observed `store.update(address_id=3)` leaves `store_id`
at 2. -/
theorem autoserial_pk_lifecycle_witness :
    ((staffSchema.fields.filter (fun f => f.kind.isAutoSerial)).map FieldDescr.name
      = [staffSchema.primaryKeyField]) ∧
    ("staff_id" ∉ (insertEntries staffRecordEx).map Prod.fst) ∧
    ("store_id" ∈ (insertEntries storeRecordEx).map Prod.fst) ∧
    (pkValue staffRecordEx = .vnull) ∧
    (pkValue (insertOp staffRecordEx (.vint 3) ⟨[], []⟩).1
      = insertedPk staffRecordEx (.vint 3)) ∧
    (pkValue (updateOp 20220315214254 storeRecordEx [("address_id", .vint 3)]
        ⟨[storeRow1, storeRow2], []⟩).record = pkValue storeRecordEx) :=
  ⟨autoserial_pk_lifecycle.1 "staff" staffSchema.fields staffSchema (by rfl),
   autoserial_pk_lifecycle.2.1 staffRecordEx (by decide) (by rfl),
   autoserial_pk_lifecycle.2.2.1 storeRecordEx (by decide),
   autoserial_pk_lifecycle.2.2.2.1 staffSchema staffNow staffPayloadEx staffRecordEx
     (by decide) (by rfl),
   autoserial_pk_lifecycle.2.2.2.2.1 staffRecordEx (.vint 3) ⟨[], []⟩ (by decide),
   autoserial_pk_lifecycle.2.2.2.2.2 20220315214254 storeRecordEx
     [("address_id", .vint 3)] ⟨[storeRow1, storeRow2], []⟩ (by decide) (by rfl)⟩

/-- The `Address` model schema as declared in the notebook. -/
def addressSchema : SchemaEntry :=
  { tableName := "address"
    fields :=
      [⟨"address", .scalar .cstring, false, none⟩,
       ⟨"address2", .scalar .cstring, true, none⟩,
       ⟨"district", .scalar .cstring, false, none⟩,
       ⟨"city_id", .foreignKey "city" "city_id", false, none⟩,
       ⟨"postal_code", .scalar .cstring, true, none⟩,
       ⟨"phone", .scalar .cstring, true, none⟩,
       ⟨"last_update", .scalar .ctimestamp, false, none⟩,
       ⟨"address_id", .autoSerial, true, some .vnull⟩]
    primaryKeyField := "address_id" }

/-- First address row observed in the notebook. -/
def addressRow1 : Row :=
  [("address_id", .vint 1), ("address", .vstr "47 MySakila Drive"),
   ("address2", .vnull), ("district", .vstr "Alberta"), ("city_id", .vint 300),
   ("postal_code", .vstr ""), ("phone", .vstr ""),
   ("last_update", .vtime 20060215094530)]

/-- Second address row observed in the notebook (`address_id=2`,
"28 MySQL Boulevard"). -/
def addressRow2 : Row :=
  [("address_id", .vint 2), ("address", .vstr "28 MySQL Boulevard"),
   ("address2", .vnull), ("district", .vstr "QLD"), ("city_id", .vint 576),
   ("postal_code", .vstr ""), ("phone", .vstr ""),
   ("last_update", .vtime 20060215094530)]

/-- The Schema Registry contents for the notebook's models. -/
def registryEx : List (String × SchemaEntry) :=
  [("store", storeSchema), ("address", addressSchema), ("staff", staffSchema)]

/-- The dvd-rentals tables observed in the notebook. -/
def dvdDb : Database :=
  [("store", [storeRow1, storeRow2]), ("address", [addressRow1, addressRow2])]

/-- C1: every row produced by `fetch_related` on a foreign-key field is a
primary-table row joined (inner, on `source.fk = target.targetColumn`
through the registry-resolved target model) with a related row, combined so
that on a column-name collision the primary table's column wins
(left-to-right precedence) while the joined table's columns are otherwise
read verbatim; concretely, on the notebook's Store/Address data the joined
row for `store_id = 2` contains `store_id = 2` and
`address = "28 MySQL Boulevard"`, its `last_update` reads Store's 2022
instant rather than Address's 2006 one, and Address's `last_update` binding
is still carried verbatim in the row. -/
theorem fetch_related_spec :
    (∀ (registry : List (String × SchemaEntry)) (schema : SchemaEntry) (fk : String)
        (db : Database) (rows : List Row),
      fetch_related registry schema fk db = .ok rows →
      ∀ r ∈ rows, ∃ (p s : Row) (f : FieldDescr) (tt tf : String) (tgt : SchemaEntry),
        findField fk schema.fields = some f ∧ f.kind = .foreignKey tt tf ∧
        alookup tt registry = some tgt ∧
        p ∈ tableRows db schema.tableName ∧ s ∈ tableRows db tgt.tableName ∧
        rowValue s tf = rowValue p fk ∧
        r = p ++ s ∧
        (∀ col, col ∈ p.map Prod.fst → rowValue r col = rowValue p col) ∧
        (∀ col, col ∉ p.map Prod.fst → rowValue r col = rowValue s col)) ∧
    (∃ rows, fetch_related registryEx storeSchema "address_id" dvdDb = .ok rows ∧
      (storeRow2 ++ addressRow2) ∈ rows ∧
      rowValue (storeRow2 ++ addressRow2) "store_id" = .vint 2 ∧
      rowValue (storeRow2 ++ addressRow2) "address" = .vstr "28 MySQL Boulevard" ∧
      rowValue (storeRow2 ++ addressRow2) "last_update" = .vtime 20220315213154 ∧
      rowValue addressRow2 "last_update" = .vtime 20060215094530 ∧
      ("last_update", Value.vtime 20060215094530) ∈ storeRow2 ++ addressRow2) := by
  constructor
  · intro registry schema fk db rows h r hr
    unfold fetch_related at h
    cases hf : findField fk schema.fields with
    | none => rw [hf] at h; simp at h
    | some f =>
      rw [hf] at h
      simp only at h
      cases hkind : f.kind with
      | scalar ty => rw [hkind] at h; simp at h
      | autoSerial => rw [hkind] at h; simp at h
      | foreignKey tt tf =>
        rw [hkind] at h
        simp only at h
        cases hreg : alookup tt registry with
        | none => rw [hreg] at h; simp at h
        | some tgt =>
          rw [hreg] at h
          simp only [Except.ok.injEq] at h
          subst h
          obtain ⟨p, hp, hrm⟩ := List.mem_flatMap.mp hr
          obtain ⟨s, hs, hps⟩ := List.mem_map.mp hrm
          have hsf := List.mem_filter.mp hs
          refine ⟨p, s, f, tt, tf, tgt, rfl, hkind, hreg, hp, hsf.1,
            of_decide_eq_true hsf.2, hps.symm, ?_, ?_⟩
          · intro col hcol
            rw [← hps]
            unfold rowValue
            rw [alookup_append_left col p s hcol]
          · intro col hcol
            rw [← hps]
            unfold rowValue
            rw [alookup_append_right col p s hcol]
  · exact ⟨[storeRow1 ++ addressRow1, storeRow2 ++ addressRow2], by rfl,
      by simp, by rfl, by rfl, by rfl, by rfl, by decide⟩

/-- Witness for C1: the general conjunct applied to the notebook's
Store/Address join at the `store_id = 2` row. -/
theorem fetch_related_spec_witness :
    ∃ (p s : Row) (f : FieldDescr) (tt tf : String) (tgt : SchemaEntry),
      findField "address_id" storeSchema.fields = some f ∧
      f.kind = .foreignKey tt tf ∧
      alookup tt registryEx = some tgt ∧
      p ∈ tableRows dvdDb storeSchema.tableName ∧ s ∈ tableRows dvdDb tgt.tableName ∧
      rowValue s tf = rowValue p "address_id" ∧
      storeRow2 ++ addressRow2 = p ++ s ∧
      (∀ col, col ∈ p.map Prod.fst →
        rowValue (storeRow2 ++ addressRow2) col = rowValue p col) ∧
      (∀ col, col ∉ p.map Prod.fst →
        rowValue (storeRow2 ++ addressRow2) col = rowValue s col) :=
  fetch_related_spec.1 registryEx storeSchema "address_id" dvdDb
    [storeRow1 ++ addressRow1, storeRow2 ++ addressRow2] (by rfl)
    (storeRow2 ++ addressRow2) (by simp)

/-- The result columns of `Staff.objects.all()` as observed in the
notebook: the physical `staff` table's columns in the table's own order,
with `staff_id` first and ending in `picture` — a column the `Staff` model
never declares. -/
def staffAllColumns : List String :=
  ["staff_id", "first_name", "last_name", "address_id", "email", "store_id",
   "active", "username", "password", "last_update", "picture"]

/-- Modelled from the spec and fixed by the notebook's observed outputs:
the SELECT the manager generates for `all`/`filter` (the builder code is
absent from the snapshot) takes every column of the underlying physical
table — a `SELECT *` — so the projection is the table's own column list in
table order, independent of the declared fields. -/
def buildSelectStar (tableCols : List String) (table : String)
    (filters : List (String × QueryOp)) : Except DbError SelectStmt :=
  match buildWhere 1 filters with
  | .error e => .error e
  | .ok (frags, ps) => .ok ⟨tableCols, table, frags, ps⟩

/-- C3 counterexample: the SELECT generated for `Staff.objects.all()`
projects `picture`, a column that is not among the declared fields, and its
column order is the physical table's, not declaration order — refuting
"exactly the declared fields, in declaration order". -/
theorem staff_select_not_declared_columns :
    ∃ stmt, buildSelectStar staffAllColumns "staff" [] = .ok stmt ∧
      stmt.columns ≠ staffSchema.fields.map FieldDescr.name ∧
      "picture" ∈ stmt.columns ∧
      "picture" ∉ staffSchema.fields.map FieldDescr.name :=
  ⟨⟨staffAllColumns, "staff", [], []⟩, rfl, by decide, by decide, by decide⟩

/-- C3 amended: a SELECT generated without an explicit column list projects
the underlying physical table's columns verbatim, in the table's own order
(`SELECT *`); the projection is the table's column list, not the declared
field list. -/
theorem buildSelectStar_columns (tableCols : List String) (table : String)
    (filters : List (String × QueryOp)) (stmt : SelectStmt)
    (h : buildSelectStar tableCols table filters = .ok stmt) :
    stmt.columns = tableCols ∧ stmt.table = table := by
  unfold buildSelectStar at h
  cases hw : buildWhere 1 filters with
  | error e => rw [hw] at h; simp at h
  | ok fp =>
    obtain ⟨frags, ps⟩ := fp
    rw [hw] at h
    simp only [Except.ok.injEq] at h
    subst h
    exact ⟨rfl, rfl⟩

/-- Witness for the amended C3 at the observed `staff` table columns. -/
theorem buildSelectStar_columns_witness :
    (SelectStmt.mk staffAllColumns "staff" [] []).columns = staffAllColumns ∧
    (SelectStmt.mk staffAllColumns "staff" [] []).table = "staff" :=
  buildSelectStar_columns staffAllColumns "staff" []
    (SelectStmt.mk staffAllColumns "staff" [] []) (by rfl)

end HeroDb
